import Mathlib

/-!
Verification development for the calamari PageXML reader
(`calamari_ocr/ocr/dataset/datareader/pagexml/reader.py`).

The Python source is shallowly embedded below:

* the line-record extractor (`PageXMLDatasetLoader._samples_gt_from_book`)
  becomes `selectTequiv` / `processTextLineGt` / `imageXmlCheckGt`;
* the geometric cutout (`PageXMLReader.cutout`) becomes `cutout`, over
  integer images (`Img`), with numpy slicing (`npSlice`) and Python
  `int()` truncation (`pyTrunc`) made explicit;
* the write-back tracker (`PageXMLReader.store_text` / `store`) becomes
  `storeTextLine` (the lxml tree mutation) and `attachPage` / `storeOp`
  (the page-flush state machine);
* the per-line body of `PageXMLReader._load_sample` becomes
  `loadSampleLine`.

External libraries used by the source (numpy, lxml, OpenCV, tfaip) are
modelled by their documented semantics at exactly the operations the
source invokes; each such modelling choice is noted at the definition.
Floating-point OpenCV routines (`cv.warpAffine`, `cv.minAreaRect`,
`cv.boxPoints`) are outside the embedding: the branches of `cutout` that
delegate to them return `none`, and the angle returned by
`cv.minAreaRect` is passed to `cutout` as an explicit parameter.
-/

/-! ## Pipeline modes (from the external `tfaip` dependency)

`tfaip.base.data.pipeline.definitions` provides `PipelineMode` with the
four members below, `TARGETS_PROCESSOR = {Training, Evaluation, Targets}`
and `INPUT_PROCESSOR = {Training, Evaluation, Prediction}`. -/

inductive PipelineMode where
  | Training
  | Evaluation
  | Prediction
  | Targets
deriving DecidableEq, Repr

/-- The modes for which `PageXMLDatasetLoader.load` takes the
ground-truth branch (`self.mode in TARGETS_PROCESSOR`, reader.py line 57). -/
def TARGETS_PROCESSOR : List PipelineMode :=
  [PipelineMode.Training, PipelineMode.Evaluation, PipelineMode.Targets]

/-- The test `self.mode in {PipelineMode.Training, PipelineMode.Evaluation}`
used at reader.py lines 67 and 112. -/
def requiresSupervision : PipelineMode → Bool
  | PipelineMode.Training => true
  | PipelineMode.Evaluation => true
  | _ => false

/-! ## Line-level document model

A `TextEquiv` node carries an optional `index` attribute and its
`Unicode` children; a `Unicode` child's text content is `Option String`
(lxml gives `.text = None` for an empty element).  A `TextLine` carries
an optional `comments` attribute and its `TextEquiv` children in
document order.  The other XML fields read by the loader (`id`,
`Coords/@points`, `../@orientation`, `../@type`, page attributes) only
populate metadata of the yielded record and are not what the claims
below observe, so they are not carried here. -/

structure TextEquiv where
  index : Option String
  unicodes : List (Option String)
deriving DecidableEq, Repr

structure TextLine where
  comments : Option String
  tequivs : List TextEquiv
deriving DecidableEq, Repr

/-- Reader.py lines 76–80: query the `TextEquiv` children carrying
`@index="{text_index}"`; if there are none, fall back to the children
with no `index` attribute. -/
def selectTequiv (textIndex : ℤ) (tes : List TextEquiv) : List TextEquiv :=
  let tagged := tes.filter (fun te => te.index = some (toString textIndex))
  if tagged.isEmpty then tes.filter (fun te => te.index = none) else tagged

/-- The Python condition `"comments" in parat and parat["comments"]`
(reader.py line 86): attribute present and truthy (non-empty). -/
def commentsTruthy (tl : TextLine) : Bool :=
  match tl.comments with
  | some c => c ≠ ""
  | none => false

/-- Outcome of the per-`TextLine` body of `_samples_gt_from_book`
(reader.py lines 75–128): a yielded record (its resolved text and
whether the non-unique-`TextEquiv` warning fired for this line), a
silent `continue`, the `Exception("Empty text field")` of line 105, or
the `IndexError` that `.pop()` raises at line 91 when the chosen
`TextEquiv` has no `Unicode` child. -/
inductive LineOutcome where
  | yielded (text : String) (warned : Bool)
  | skipped
  | emptyTextError
  | unicodePopError
deriving DecidableEq, Repr

/-- Per-line body of `PageXMLDatasetLoader._samples_gt_from_book`
(reader.py lines 75–128), for one `TextLine`:

1. select the competing `TextEquiv` candidates (lines 76–80);
2. record the data-quality warning `len(tequivs) > 1` (lines 82–83);
3. skip commented lines (lines 85–87);
4. if a candidate exists take the first (`tequivs[0]`, line 90) and read
   the text of the *last* `Unicode` child (`.pop()`, line 91), turning an
   absent text node into `""` (lines 92–94); otherwise text is missing
   and the `skip_invalid` / `non_existing_as_empty` policies apply
   (lines 99–105);
5. in Training/Evaluation mode skip resolved-but-empty text
   (lines 112–115). -/
def processTextLineGt (mode : PipelineMode) (textIndex : ℤ)
    (skipInvalid nonExistingAsEmpty skipCommented : Bool) (tl : TextLine) :
    LineOutcome :=
  let cs := selectTequiv textIndex tl.tequivs
  let warned := decide (1 < cs.length)
  if skipCommented && commentsTruthy tl then LineOutcome.skipped
  else
    match cs with
    | te :: _ =>
      match te.unicodes.getLast? with
      | none => LineOutcome.unicodePopError
      | some u =>
        let text := u.getD ""
        if requiresSupervision mode && decide (text = "") then LineOutcome.skipped
        else LineOutcome.yielded text warned
    | [] =>
      if skipInvalid then LineOutcome.skipped
      else if nonExistingAsEmpty then
        if requiresSupervision mode then LineOutcome.skipped
        else LineOutcome.yielded "" warned
      else LineOutcome.emptyTextError

/-! ## Image-filename / XML consistency check -/

/-- Python `str.endswith`. -/
def strEndsWith (s suf : String) : Bool :=
  suf.data.isSuffixOf s.data

/-- Split a character list at every occurrence of `c` (used to walk path
components and extension dots; kept on `List Char` so that concrete
instances evaluate by `decide`). -/
def splitOnChar (c : Char) (l : List Char) : List (List Char) :=
  l.foldr
    (fun ch acc =>
      match acc with
      | [] => [[ch]]
      | g :: gs => if ch = c then [] :: g :: gs else (ch :: g) :: gs)
    [[]]

/-- Modelled from the spec: `split_all_ext` lives in `calamari_ocr.utils`
which is not part of the sources at hand; per the spec it strips the
extension(s) from a path ("the page's declared image filename, with
extension stripped"), e.g. `"scans/page1.tif"` becomes `"scans/page1"`.
This is its first component (the path without extensions). -/
def split_all_ext_base (p : String) : String :=
  let comps := splitOnChar '/' p.data
  let last := comps.getLast?.getD []
  let base := (splitOnChar '.' last).head?.getD []
  String.mk (((comps.dropLast).map (fun g => g ++ ['/'])).flatten ++ base)

/-- The mismatch exception of reader.py lines 68–69 carries both paths
in its message. -/
structure ImageXmlMismatch where
  img : String
  imgfile : String
deriving DecidableEq, Repr

instance {ε α : Type} [DecidableEq ε] [DecidableEq α] : DecidableEq (Except ε α) :=
  fun x y =>
    match x, y with
    | Except.ok a, Except.ok b =>
      if h : a = b then isTrue (by rw [h]) else isFalse (fun hh => h (by cases hh; rfl))
    | Except.error a, Except.error b =>
      if h : a = b then isTrue (by rw [h]) else isFalse (fun hh => h (by cases hh; rfl))
    | Except.ok _, Except.error _ => isFalse (fun hh => by cases hh)
    | Except.error _, Except.ok _ => isFalse (fun hh => by cases hh)

/-- Reader.py lines 67–69 (ground-truth branch): in Training/Evaluation
mode, fail unless the caller-supplied image path, extensions stripped,
ends with the page's declared `imageFilename`, extensions stripped. -/
def imageXmlCheckGt (mode : PipelineMode) (img imgfile : String) :
    Except ImageXmlMismatch Unit :=
  if requiresSupervision mode &&
      !(strEndsWith (split_all_ext_base img) (split_all_ext_base imgfile)) then
    Except.error ⟨img, imgfile⟩
  else
    Except.ok ()

example : imageXmlCheckGt PipelineMode.Training "scans/page1.tif" "page1.png" =
    Except.ok () := by decide

example : imageXmlCheckGt PipelineMode.Training "scans/page2.tif" "page1.png" =
    Except.error ⟨"scans/page2.tif", "page1.png"⟩ := by decide

/-! ## The geometric cutout engine (`PageXMLReader.cutout`)

Images are rectangular grids of integer pixel values (the source works
on numpy `uint8`/integer arrays; the claims below never exercise
wrap-around or saturation, so pixels are plain integers). -/

/-- A 2-dimensional image: a list of rows of pixel values. -/
abbrev Img := List (List ℤ)

/-- Number of rows of the image. -/
def imgRows (img : Img) : ℕ := img.length

/-- `img.shape[1]` for a rectangular numpy array: the length of the
first row (0 for an empty array). -/
def imgCols (img : Img) : ℕ := (img.head?.getD []).length

/-- `size == 0` test of numpy: total number of elements. -/
def imgSize (img : Img) : ℕ := (img.map List.length).sum

/-- `np.amax` of a (nonempty) 2-dimensional array; 0 on the empty array,
where numpy would raise (the source only calls it on nonempty crops). -/
def imgMax (img : Img) : ℤ :=
  match img.flatten with
  | [] => 0
  | x :: xs => xs.foldl max x

/-- Normalize one Python slice bound for a sequence of length `n`
(step 1): negative indices count from the end, then the bound is clamped
into `[0, n]`. -/
def pyIdx (n : ℕ) (i : ℤ) : ℕ :=
  let j := if i < 0 then i + n else i
  (max 0 (min j (n : ℤ))).toNat

/-- Python/numpy slice `xs[a:b]` (step 1). -/
def npSlice {α : Type} (xs : List α) (a b : ℤ) : List α :=
  (xs.take (pyIdx xs.length b)).drop (pyIdx xs.length a)

/-- numpy 2-d slice `img[r0:r1, c0:c1]`. -/
def crop2 (img : Img) (r0 r1 c0 c1 : ℤ) : Img :=
  (npSlice img r0 r1).map (fun row => npSlice row c0 c1)

/-- Truncation toward zero of the fraction `a / b` with positive
denominator (the rounding Python `int(...)` applies). -/
def truncDiv (a : ℤ) (b : ℕ) : ℤ :=
  if 0 ≤ a then a.ediv b else -((-a).ediv b)

/-- Python `int(scale * n)` for a rational `scale` and integer `n`:
`scale * n = (scale.num * n) / scale.den` as an exact fraction, then
truncate toward zero.  (Kept on the numerator/denominator so that
concrete instances evaluate inside the kernel.) -/
def pyTruncMul (q : ℚ) (n : ℤ) : ℤ :=
  truncDiv (q.num * n) q.den

/-- Reader.py line 237: one parsed `"x,y"` coordinate pair is scaled and
axis-swapped into `(int(scale*y), int(scale*x))`, i.e. (row, column). -/
def scalePt (scale : ℚ) (p : ℤ × ℤ) : ℤ × ℤ :=
  (pyTruncMul scale p.2, pyTruncMul scale p.1)

/-- `np.amax(coords, 0)`: componentwise maximum, seeded with a first
point (the source array is nonempty there). -/
def amax2 (pts : List (ℤ × ℤ)) (p0 : ℤ × ℤ) : ℤ × ℤ :=
  pts.foldl (fun m p => (max m.1 p.1, max m.2 p.2)) p0

/-- `np.amin(coords, 0)`: componentwise minimum, seeded with a first
point. -/
def amin2 (pts : List (ℤ × ℤ)) (p0 : ℤ × ℤ) : ℤ × ℤ :=
  pts.foldl (fun m p => (min m.1 p.1, min m.2 p.2)) p0

/-- The edge list of a polygon: consecutive vertex pairs, last joined
back to first. -/
def polyEdges (pts : List (ℤ × ℤ)) : List ((ℤ × ℤ) × (ℤ × ℤ)) :=
  pts.zip (pts.rotate 1)

/-- Is `p` on the closed segment from `a` to `b`? (integer cross-product
and bounding tests). -/
def onSeg (a b p : ℤ × ℤ) : Bool :=
  (b.1 - a.1) * (p.2 - a.2) - (b.2 - a.2) * (p.1 - a.1) = 0 &&
    min a.1 b.1 ≤ p.1 && p.1 ≤ max a.1 b.1 &&
    min a.2 b.2 ≤ p.2 && p.2 ≤ max a.2 b.2

/-- Even–odd point-in-polygon test (boundary counts as inside), on
points given as `(x, y)`.  This models the mask drawn by `cv.fillPoly`
(reader.py lines 294–295); `cv.fillPoly` is external OpenCV and its
exact boundary rasterization is not relied on by any theorem below —
only the mask's shape is. -/
def inPoly (pts : List (ℤ × ℤ)) (p : ℤ × ℤ) : Bool :=
  (polyEdges pts).any (fun e => onSeg e.1 e.2 p) ||
    (polyEdges pts).foldl
      (fun acc e =>
        let a := e.1
        let b := e.2
        if (decide (a.2 ≤ p.2) != decide (b.2 ≤ p.2)) &&
            (decide ((p.1 - a.1) * (b.2 - a.2) < (b.1 - a.1) * (p.2 - a.2)) !=
              decide (b.2 < a.2)) then
          !acc
        else acc)
      false

/-- Reader.py lines 292–299: build `box` (all `cval`), rasterize the
polygon mask, and recombine with `bitwise_and`/`add`.  For a 0/255 mask
over integer pixels that composition keeps the pixel inside the mask and
writes `cval` outside; the shape of `cut` is preserved. -/
def maskCompose (cut : Img) (ptsXY : List (ℤ × ℤ)) (cval : ℤ) : Img :=
  cut.enum.map (fun rc =>
    rc.2.enum.map (fun cv =>
      if inPoly ptsXY (cv.1, rc.1) then cv.2 else cval))

/-- `CutMode` of reader.py lines 33–36. -/
inductive CutMode where
  | BOX
  | POLYGON
  | MBR
deriving DecidableEq, Repr

/-- Reader.py lines 249–251: when `angle is None` it is computed from
`cv.minAreaRect`.  `cv.minAreaRect` is external OpenCV returning a
floating-point angle, so that angle (`mbr[2]`) enters as the parameter
`mbrAngle`; `extR`/`extC` are the translated polygon's bounding extents
(the variables named `maxX`/`maxY` at that line: row extent and column
extent). -/
def resolveAngle (mbrAngle : ℚ) (extR extC : ℤ) : ℚ :=
  if extR ≤ extC then mbrAngle else mbrAngle - 90

/-- Stated from the spec's words for claim C5, for comparison with
`resolveAngle`: "compute from the minimum-area rectangle of the polygon,
with a +90° correction when the rectangle's height does not exceed its
width". -/
def claimedAutoAngle (mbrAngle : ℚ) (mbrH mbrW : ℤ) : ℚ :=
  if mbrH ≤ mbrW then mbrAngle + 90 else mbrAngle

/-- `PageXMLReader.cutout` (reader.py lines 236–301) on already-parsed
`"x,y"` pairs:

* line 237: scale and axis-swap the coordinates (`scalePt`);
* lines 239–241: bounds and crop (`amax2`/`amin2`/`crop2`; on an empty
  coordinate list `np.amax` raises, hence `none`);
* lines 242–243: empty crop returned as is;
* lines 244–246: translate into the crop frame;
* lines 249–251: `angle=None` resolved by `resolveAngle` from the
  external `cv.minAreaRect` angle `mbrAngle`;
* lines 254–259: `cval=None` resolved to the crop maximum (2-d image);
* lines 262–280: a non-zero angle rotates with `cv.warpAffine` —
  external floating-point OpenCV, outside this embedding (`none`);
* lines 282–284: zero angle swaps the points back to `(x, y)` and swaps
  the bounds;
* lines 287–289: `CutMode.MBR` replaces the polygon via
  `cv.minAreaRect`/`cv.boxPoints` — external OpenCV (`none`);
* lines 292–299: polygon masking (`maskCompose`);
* line 301: final crop to the polygon bounds. -/
def cutout (pageimg : Img) (coords0 : List (ℤ × ℤ)) (mode : CutMode)
    (angle : Option ℚ) (mbrAngle : ℚ) (cval : Option ℤ) (scale : ℚ) :
    Option Img :=
  match coords0 with
  | [] => none
  | c :: cs =>
    let pts := (c :: cs).map (scalePt scale)
    let p0 := scalePt scale c
    let mx := amax2 pts p0
    let mn := amin2 pts p0
    let cut := crop2 pageimg mn.1 (mx.1 + 1) mn.2 (mx.2 + 1)
    if imgSize cut = 0 then some cut
    else
      let pts' := pts.map (fun p => (p.1 - mn.1, p.2 - mn.2))
      let extR := mx.1 - mn.1
      let extC := mx.2 - mn.2
      let ang : ℚ :=
        match angle with
        | none => resolveAngle mbrAngle extR extC
        | some a => a
      let cv : ℤ :=
        match cval with
        | some v => v
        | none => imgMax cut
      if ang ≠ 0 then none
      else
        match mode with
        | CutMode.MBR => none
        | CutMode.POLYGON =>
          some (crop2 (maskCompose cut (pts'.map Prod.swap) cv) 0 (extR + 1) 0 (extC + 1))
        | CutMode.BOX => some (crop2 cut 0 (extR + 1) 0 (extC + 1))

/-- Decimal digits to a number; `none` on the empty list or a non-digit
(where Python `int(...)` raises `ValueError`). -/
def digitsToNat : List Char → Option ℕ
  | [] => none
  | l =>
    l.foldl
      (fun acc c =>
        acc.bind (fun n =>
          if 48 ≤ c.toNat ∧ c.toNat ≤ 57 then some (n * 10 + (c.toNat - 48)) else none))
      (some 0)

/-- Python `int(...)` on a string: optional sign then decimal digits. -/
def pyInt : List Char → Option ℤ
  | '-' :: rest => (digitsToNat rest).map (fun n => -(n : ℤ))
  | '+' :: rest => (digitsToNat rest).map (fun n => (n : ℤ))
  | l => (digitsToNat l).map (fun n => (n : ℤ))

/-- Reader.py line 236: parse the PAGE `points` string
`"x1,y1 x2,y2 ..."`.  Python splits on whitespace runs, splits each
token at `","`, indexes parts 0 and 1 and applies `int` (raising on a
malformed token, hence `Option`). -/
def parseTok (tok : List Char) : Option (ℤ × ℤ) :=
  match splitOnChar ',' tok with
  | a :: b :: _ => do
    let x ← pyInt a
    let y ← pyInt b
    pure (x, y)
  | _ => none

/-- Parse a complete coordinate string (reader.py line 236). -/
def parseCoords (s : String) : Option (List (ℤ × ℤ)) :=
  ((splitOnChar ' ' s.data).filter (fun t => ¬t.isEmpty)).mapM parseTok

/-- `cutout` on the raw coordinate string. -/
def cutoutStr (pageimg : Img) (coordstring : String) (mode : CutMode)
    (angle : Option ℚ) (mbrAngle : ℚ) (cval : Option ℤ) (scale : ℚ) :
    Option Img :=
  (parseCoords coordstring).bind
    (fun coords => cutout pageimg coords mode angle mbrAngle cval scale)

/-- A concrete 11×11 test image with pairwise distinct pixels. -/
def img11 : Img :=
  (List.range 11).map (fun i => (List.range 11).map (fun j => (11 * i + j : ℤ)))

example : parseCoords "0,0 0,10 10,10 10,0" =
    some [(0, 0), (0, 10), (10, 10), (10, 0)] := by decide

example : cutoutStr img11 "0,0 0,10 10,10 10,0" CutMode.BOX (some 0) 0 none 1 =
    some img11 := by decide

/-! ## The per-line body of `PageXMLReader._load_sample` -/

/-- `np.pad(img, pad, mode='constant', constant_values=cval)` for a
2-d array and a scalar pad width: a border of `pad` cells of `cval` on
every side. -/
def npPad (img : Img) (pad : ℕ) (cval : ℤ) : Img :=
  let w := imgCols img
  let padRow := List.replicate (w + 2 * pad) cval
  List.replicate pad padRow ++
    img.map (fun row => List.replicate pad cval ++ row ++ List.replicate pad cval) ++
    List.replicate pad padRow

/-- Python `q % 360` for a rational `q` (the divisor is positive, so
this is the floor-based remainder Python uses). -/
def pyMod360 (q : ℚ) : ℚ := q - 360 * (⌊q / 360⌋ : ℤ)

/-- The body of the per-record loop of `PageXMLReader._load_sample`
(reader.py lines 362–386) for one record when an image is processed and
`text_only` is false:

* line 368: `ly, lx = img.shape[:2]`;
* line 371: `angle = orientation if orientation and orientation % 360 != 0
  else 0`;
* lines 373–377: the cutout with `mode=CutMode.POLYGON`, `cval=None`
  and `scale = lx / sample['img_width']` (the exact rational value of
  that division);
* lines 380–382: `if self.args.pad: img = np.pad(img, pad,
  mode='constant', constant_values=img.max())` — note the source
  reassigns `img`, the full page image, not `line_img`;
* line 386: the yielded `InputSample` carries `line_img`.

Returns (the yielded line image, the page image after the loop body). -/
def loadSampleLine (pad : ℕ) (img : Img) (coords0 : List (ℤ × ℤ))
    (orientation : ℚ) (imgWidth : ℕ) : Option Img × Img :=
  let lx := imgCols img
  let angle : ℚ :=
    if orientation ≠ 0 ∧ pyMod360 orientation ≠ 0 then orientation else 0
  let lineImg :=
    cutout img coords0 CutMode.POLYGON (some angle) 0 none (mkRat lx imgWidth)
  let img' := if pad ≠ 0 then npPad img pad (imgMax img) else img
  (lineImg, img')

/-- A concrete 4×4 test image. -/
def img4 : Img :=
  (List.range 4).map (fun i => (List.range 4).map (fun j => (4 * i + j : ℤ)))

/-! ## The lxml tree mutation of `PageXMLReader.store_text`

An `XElem` is an lxml element: the namespace URI of its tag (lxml tags
are `"{uri}local"` or plain `"local"`, hence `Option String`), the local
tag name, its attributes, children and text.  Two lxml behaviours matter
here and are modelled exactly:

* `line.find('./ns:TextEquiv[@index="i"]', namespaces=ns)` matches only
  children whose tag is `{ns}TextEquiv` (namespace-qualified) carrying
  `index="i"`, and returns the first such child in document order;
* `etree.SubElement(parent, "TextEquiv", ...)` appends a child whose
  tag is plain `"TextEquiv"` — it does **not** inherit the parent
  document's default namespace. -/

inductive XElem where
  | mk (nsUri : Option String) (tag : String) (attrs : List (String × String))
      (children : List XElem) (text : Option String)

/-- Namespace URI of the element's tag. -/
def XElem.nsUri : XElem → Option String
  | XElem.mk n _ _ _ _ => n

/-- Local tag name. -/
def XElem.tag : XElem → String
  | XElem.mk _ t _ _ _ => t

/-- Attribute list. -/
def XElem.attrs : XElem → List (String × String)
  | XElem.mk _ _ a _ _ => a

/-- Child elements, in document order. -/
def XElem.children : XElem → List XElem
  | XElem.mk _ _ _ c _ => c

/-- Text content (`None` in lxml when absent). -/
def XElem.text : XElem → Option String
  | XElem.mk _ _ _ _ t => t

/-- lxml attribute lookup: attributes have unique keys; first match. -/
def lookupAttr (attrs : List (String × String)) (key : String) : Option String :=
  (attrs.find? (fun a => a.1 = key)).map (fun a => a.2)

/-- Does `e` match `ns:TextEquiv[@index="textIndex"]` (reader.py
line 309)? -/
def isTE (ns : String) (textIndex : ℤ) (e : XElem) : Bool :=
  e.nsUri = some ns && e.tag = "TextEquiv" &&
    lookupAttr e.attrs "index" = some (toString textIndex)

/-- Does `e` match `ns:Unicode` (reader.py line 314)? -/
def isU (ns : String) (e : XElem) : Bool :=
  e.nsUri = some ns && e.tag = "Unicode"

/-- Overwrite the element's text (`u_xml.text = sentence`,
reader.py line 318). -/
def setText (s : String) : XElem → XElem
  | XElem.mk n t a c _ => XElem.mk n t a c (some s)

/-- The `TextEquiv` element created by
`etree.SubElement(line, "TextEquiv", attrib={"index": str(self.text_index)})`
(reader.py line 312): note the plain, namespace-less tag. -/
def newTE (textIndex : ℤ) : XElem :=
  XElem.mk none "TextEquiv" [("index", toString textIndex)] [] none

/-- The `Unicode` element created by
`etree.SubElement(textequivxml, "Unicode")` (reader.py line 316):
namespace-less, no text yet. -/
def newUnicode : XElem := XElem.mk none "Unicode" [] [] none

/-- Reader.py lines 314–318 on the children of the chosen `TextEquiv`:
find the first `ns:Unicode` child and set its text; if there is none,
append a fresh (namespace-less) `Unicode` and set its text. -/
def setUChildren (ns : String) (s : String) : List XElem → List XElem
  | [] => [setText s newUnicode]
  | u :: us => if isU ns u then setText s u :: us else u :: setUChildren ns s us

/-- Apply `setUChildren` inside a `TextEquiv` element. -/
def setUInTE (ns : String) (s : String) : XElem → XElem
  | XElem.mk n t a c tx => XElem.mk n t a (setUChildren ns s c) tx

/-- Reader.py lines 309–318 on the children of the line: find the first
`ns:TextEquiv[@index]` child and update its `Unicode`; if there is none,
append the freshly created (namespace-less) `TextEquiv` and create its
`Unicode` inside it. -/
def storeChildren (ns : String) (textIndex : ℤ) (s : String) :
    List XElem → List XElem
  | [] => [setUInTE ns s (newTE textIndex)]
  | c :: cs =>
    if isTE ns textIndex c then setUInTE ns s c :: cs
    else c :: storeChildren ns textIndex s cs

/-- The XML mutation performed by one `PageXMLReader.store_text` call
(reader.py lines 306–318) on the record's line element, with the
document's default namespace `ns` and the reader's `text_index`. -/
def storeTextLine (ns : String) (textIndex : ℤ) (s : String) (line : XElem) :
    XElem :=
  match line with
  | XElem.mk n t a c tx => XElem.mk n t a (storeChildren ns textIndex s c) tx

/-! ## The page-flush state machine of `store_text` / `store` -/

/-- The tracker state: `self._last_page_id` (reader.py line 214) plus
the pages flushed so far, in order (each `_store_page` call appends the
page id it serializes, reader.py lines 342–345). -/
structure WBState where
  lastPageId : Option String
  flushes : List String
deriving DecidableEq, Repr

/-- Python truthiness of `self._last_page_id` (`if self._last_page_id:`,
reader.py lines 322 and 334): not `None` and not the empty string. -/
def truthyId : Option String → Bool
  | none => false
  | some s => s ≠ ""

/-- The page flushed by the tail of `store_text` (reader.py
lines 321–324) when the incoming page id differs: the previous page, if
truthy. -/
def flushOf (o : Option String) : List String :=
  match o with
  | some s => if s = "" then [] else [s]
  | none => []

/-- The flush logic at the tail of one `store_text` call (reader.py
lines 321–324): if the tracked page id differs from the incoming
record's page id, flush the previously tracked page (when truthy) and
then track the new page id. -/
def attachPage (st : WBState) (pageId : String) : WBState :=
  if st.lastPageId = some pageId then st
  else ⟨some pageId, st.flushes ++ flushOf st.lastPageId⟩

/-- `PageXMLReader.store` (reader.py lines 333–340): if a page id is
tracked (truthy), flush it and reset the tracker; otherwise write every
loaded page file as is. -/
def storeOp (xmlfiles : List String) (st : WBState) : WBState :=
  match st.lastPageId with
  | some s =>
    if s = "" then ⟨st.lastPageId, st.flushes ++ xmlfiles⟩
    else ⟨none, st.flushes ++ [s]⟩
  | none => ⟨st.lastPageId, st.flushes ++ xmlfiles⟩

/-- A run of `store_text` calls, by the page ids of the incoming
records, from `prepare_store`'s initial state (reader.py lines 303–304:
`self._last_page_id = None` and nothing flushed). -/
def runAttaches (pageIds : List String) : WBState :=
  pageIds.foldl attachPage ⟨none, []⟩

/-- The page-id sequence of records arriving strictly grouped by page:
each `(p, k)` contributes `k` consecutive records for page `p`. -/
def groupedSeq (groups : List (String × ℕ)) : List String :=
  groups.flatMap (fun g => List.replicate g.2 g.1)

example :
    runAttaches (groupedSeq [("a.xml", 2), ("b.xml", 2)]) =
      ⟨some "b.xml", ["a.xml"]⟩ := by decide

example :
    storeOp ["a.xml", "b.xml"] (runAttaches (groupedSeq [("a.xml", 2), ("b.xml", 2)])) =
      ⟨none, ["a.xml", "b.xml"]⟩ := by decide

/-! ## Helper lemmas: the write-back state machine -/

theorem foldl_attachPage_self (p : String) (fs : List String) (k : ℕ) :
    (List.replicate k p).foldl attachPage ⟨some p, fs⟩ = ⟨some p, fs⟩ := by
  induction k with
  | zero => rfl
  | succ n ih =>
    rw [List.replicate_succ, List.foldl_cons]
    have h1 : attachPage ⟨some p, fs⟩ p = ⟨some p, fs⟩ := by
      simp [attachPage]
    rw [h1]
    exact ih

theorem foldl_attachPage_block (p : String) (k : ℕ) (hk : k ≠ 0) (st : WBState)
    (h : st.lastPageId ≠ some p) :
    (List.replicate k p).foldl attachPage st =
      ⟨some p, st.flushes ++ flushOf st.lastPageId⟩ := by
  cases k with
  | zero => exact absurd rfl hk
  | succ n =>
    rw [List.replicate_succ, List.foldl_cons]
    have h1 : attachPage st p = ⟨some p, st.flushes ++ flushOf st.lastPageId⟩ := by
      simp [attachPage, h]
    rw [h1]
    exact foldl_attachPage_self p _ n

theorem foldl_attachPage_grouped :
    ∀ (groups : List (String × ℕ)) (q : String) (fs : List String),
      q ≠ "" → (∀ g ∈ groups, g.2 ≠ 0 ∧ g.1 ≠ "") →
      (groups.map Prod.fst).Nodup → q ∉ groups.map Prod.fst →
      (groupedSeq groups).foldl attachPage ⟨some q, fs⟩ =
        ⟨some ((groups.map Prod.fst).getLastD q),
          fs ++ (q :: groups.map Prod.fst).dropLast⟩ := by
  intro groups
  induction groups with
  | nil =>
    intro q fs _ _ _ _
    simp [groupedSeq]
  | cons g gs ih =>
    intro q fs hq hg hnd hni
    have hseq : groupedSeq (g :: gs) = List.replicate g.2 g.1 ++ groupedSeq gs := by
      simp [groupedSeq]
    rw [hseq, List.foldl_append]
    have hqg : q ≠ g.1 := by
      intro hc
      exact hni (by rw [List.map_cons]; exact hc ▸ List.mem_cons_self _ _)
    have hblock : (List.replicate g.2 g.1).foldl attachPage ⟨some q, fs⟩ =
        ⟨some g.1, fs ++ [q]⟩ := by
      rw [foldl_attachPage_block g.1 g.2 (hg g (List.mem_cons_self g gs)).1
        ⟨some q, fs⟩ (by simpa using hqg)]
      simp [flushOf, hq]
    rw [hblock]
    have hnd' : (gs.map Prod.fst).Nodup := by
      rw [List.map_cons] at hnd
      exact hnd.of_cons
    have hgnotin : g.1 ∉ gs.map Prod.fst := by
      rw [List.map_cons] at hnd
      exact (List.nodup_cons.mp hnd).1
    rw [ih g.1 (fs ++ [q]) (hg g (List.mem_cons_self g gs)).2
      (fun g' hg' => hg g' (List.mem_cons_of_mem g hg')) hnd' hgnotin]
    rw [List.map_cons, List.getLastD_cons, List.dropLast_cons₂, List.append_assoc,
      List.singleton_append]

/-- C1-adjacent characterization of a full grouped run, used both for
the end state and for the state at intermediate page boundaries. -/
theorem runAttaches_grouped (groups : List (String × ℕ))
    (hgroups : groups ≠ [])
    (hg : ∀ g ∈ groups, g.2 ≠ 0 ∧ g.1 ≠ "") (hnd : (groups.map Prod.fst).Nodup) :
    runAttaches (groupedSeq groups) =
      ⟨some ((groups.map Prod.fst).getLastD ""),
        (groups.map Prod.fst).dropLast⟩ := by
  cases groups with
  | nil => exact absurd rfl hgroups
  | cons g gs =>
    have hseq : groupedSeq (g :: gs) = List.replicate g.2 g.1 ++ groupedSeq gs := by
      simp [groupedSeq]
    rw [runAttaches, hseq, List.foldl_append]
    have hblock : (List.replicate g.2 g.1).foldl attachPage ⟨none, []⟩ =
        ⟨some g.1, []⟩ := by
      rw [foldl_attachPage_block g.1 g.2 (hg g (List.mem_cons_self g gs)).1
        ⟨none, []⟩ (by simp)]
      simp [flushOf]
    rw [hblock]
    have hnd' : (gs.map Prod.fst).Nodup := by
      rw [List.map_cons] at hnd
      exact hnd.of_cons
    have hgnotin : g.1 ∉ gs.map Prod.fst := by
      rw [List.map_cons] at hnd
      exact (List.nodup_cons.mp hnd).1
    rw [foldl_attachPage_grouped gs g.1 [] (hg g (List.mem_cons_self g gs)).2
      (fun g' hg' => hg g' (List.mem_cons_of_mem g hg')) hnd' hgnotin]
    rw [List.map_cons, List.getLastD_cons]
    simp

/-- **C1**: when `store_text` calls arrive strictly grouped by page id
(each page's records consecutive, pages pairwise distinct, at least one
record per page, page ids non-empty), the run flushes exactly the pages
before the last, in order (`flushes = dropLast`); each page is flushed
precisely at the first attach belonging to the next page (the prefix
part); the final page is never flushed by the attaches alone
(`p ∉ flushes`) and is written by the explicit trailing `store` call,
which also resets the tracked page id to `None`. -/
theorem C1_write_back_flush_once :
    ∀ (groups : List (String × ℕ)) (xmlfiles : List String),
      groups ≠ [] →
      (∀ g ∈ groups, g.2 ≠ 0 ∧ g.1 ≠ "") →
      (groups.map Prod.fst).Nodup →
      (runAttaches (groupedSeq groups)).flushes = (groups.map Prod.fst).dropLast
      ∧ (∀ p, (groups.map Prod.fst).getLast? = some p →
          (runAttaches (groupedSeq groups)).lastPageId = some p
          ∧ p ∉ (runAttaches (groupedSeq groups)).flushes
          ∧ storeOp xmlfiles (runAttaches (groupedSeq groups)) =
              ⟨none, (groups.map Prod.fst).dropLast ++ [p]⟩)
      ∧ (∀ pre a b post, groups = pre ++ a :: b :: post →
          (runAttaches (groupedSeq (pre ++ [a]))).flushes = pre.map Prod.fst
          ∧ (attachPage (runAttaches (groupedSeq (pre ++ [a]))) b.1).flushes =
              pre.map Prod.fst ++ [a.1]) := by
  intro groups xmlfiles hne hg hnd
  have hrun := runAttaches_grouped groups hne hg hnd
  refine ⟨by rw [hrun], ?_, ?_⟩
  · intro p hp
    have hlast : (groups.map Prod.fst).getLastD "" = p := by
      rw [List.getLastD_eq_getLast?, hp]
      rfl
    have hdecomp : (groups.map Prod.fst).dropLast ++ [p] = groups.map Prod.fst :=
      List.dropLast_append_getLast? p hp
    have hpmem : p ∈ groups.map Prod.fst := by
      rw [← hdecomp]
      exact List.mem_append_right _ (List.mem_singleton_self p)
    have hpne : p ≠ "" := by
      rcases List.mem_map.mp hpmem with ⟨g, hgmem, hgp⟩
      exact hgp ▸ (hg g hgmem).2
    have hnotin : p ∉ (groups.map Prod.fst).dropLast := by
      have h2 : ((groups.map Prod.fst).dropLast ++ [p]).Nodup := by
        rw [hdecomp]; exact hnd
      exact fun hc => (List.nodup_append.mp h2).2.2 hc (List.mem_singleton_self p)
    refine ⟨by rw [hrun, hlast], by rw [hrun]; exact hnotin, ?_⟩
    rw [hrun, hlast]
    simp [storeOp, hpne]
  · intro pre a b post hsplit
    have hamem : a ∈ groups := by
      rw [hsplit]
      exact List.mem_append_right _ (List.mem_cons_self a _)
    have hne2 : pre ++ [a] ≠ [] := by simp
    have hg2 : ∀ g ∈ pre ++ [a], g.2 ≠ 0 ∧ g.1 ≠ "" := by
      intro g hgmem
      refine hg g ?_
      rw [hsplit]
      rcases List.mem_append.mp hgmem with h | h
      · exact List.mem_append_left _ h
      · rw [List.mem_singleton.mp h]
        exact List.mem_append_right _ (List.mem_cons_self a _)
    have hsub : List.Sublist (pre ++ [a]) groups := by
      rw [hsplit]
      exact List.Sublist.append_left (List.Sublist.cons₂ a (List.nil_sublist _)) pre
    have hnd2 : ((pre ++ [a]).map Prod.fst).Nodup :=
      hnd.sublist (hsub.map Prod.fst)
    have hrun2 := runAttaches_grouped (pre ++ [a]) hne2 hg2 hnd2
    have hmap2 : (pre ++ [a]).map Prod.fst = pre.map Prod.fst ++ [a.1] := by
      simp
    have hlast2 : ((pre ++ [a]).map Prod.fst).getLastD "" = a.1 := by
      rw [hmap2, List.getLastD_eq_getLast?, List.getLast?_concat]
      rfl
    have hdrop2 : ((pre ++ [a]).map Prod.fst).dropLast = pre.map Prod.fst := by
      rw [hmap2, List.dropLast_concat]
    have hstate : runAttaches (groupedSeq (pre ++ [a])) =
        ⟨some a.1, pre.map Prod.fst⟩ := by
      rw [hrun2, hlast2, hdrop2]
    have hab : a.1 ≠ b.1 := by
      have h3 : (groups.map Prod.fst) =
          pre.map Prod.fst ++ a.1 :: b.1 :: post.map Prod.fst := by
        rw [hsplit]; simp
      have h4 := hnd
      rw [h3] at h4
      have h5 := (List.nodup_append.mp h4).2.1
      exact fun hc => (List.nodup_cons.mp h5).1 (hc ▸ List.mem_cons_self b.1 _)
    have hane : a.1 ≠ "" := (hg a hamem).2
    refine ⟨by rw [hstate], ?_⟩
    rw [hstate]
    simp [attachPage, flushOf, hab, hane]

/-- Witness for C1 at the spec's Scenario E: two pages, two lines each,
attached in page order. -/
theorem C1_witness :
    (runAttaches (groupedSeq [("a.xml", 2), ("b.xml", 2)])).flushes = ["a.xml"]
    ∧ storeOp ["a.xml", "b.xml"]
        (runAttaches (groupedSeq [("a.xml", 2), ("b.xml", 2)])) =
          ⟨none, ["a.xml", "b.xml"]⟩ := by
  have h := C1_write_back_flush_once [("a.xml", 2), ("b.xml", 2)]
    ["a.xml", "b.xml"] (by decide) (by decide) (by decide)
  refine ⟨by simpa using h.1, ?_⟩
  have h2 := (h.2.1 "b.xml" (by decide)).2.2
  simpa using h2

/-- **C7**: in the ground-truth loader, for the supervision modes
(Training/Evaluation) the image/XML pairing check compares the two paths
with extensions stripped and passes exactly when the stripped supplied
image path ends with the stripped declared filename; a failure carries
both paths; for the remaining ground-truth mode (`Targets`, when no
supervised image/ground-truth pairing is required) the check is skipped.
Scenario B (declared `page1.png`, supplied `scans/page1.tif`) passes and
Scenario C (supplied `scans/page2.tif`) fails. -/
theorem C7_image_xml_mismatch_check :
    (∀ mode img imgfile, requiresSupervision mode = true →
      (strEndsWith (split_all_ext_base img) (split_all_ext_base imgfile) = true →
        imageXmlCheckGt mode img imgfile = Except.ok ())
      ∧ (strEndsWith (split_all_ext_base img) (split_all_ext_base imgfile) = false →
        imageXmlCheckGt mode img imgfile = Except.error ⟨img, imgfile⟩))
    ∧ (∀ img imgfile,
        imageXmlCheckGt PipelineMode.Targets img imgfile = Except.ok ())
    ∧ imageXmlCheckGt PipelineMode.Training "scans/page1.tif" "page1.png" =
        Except.ok ()
    ∧ imageXmlCheckGt PipelineMode.Training "scans/page2.tif" "page1.png" =
        Except.error ⟨"scans/page2.tif", "page1.png"⟩ := by
  refine ⟨?_, ?_, by decide, by decide⟩
  · intro mode img imgfile hsup
    constructor
    · intro hmatch
      simp [imageXmlCheckGt, hsup, hmatch]
    · intro hmatch
      simp [imageXmlCheckGt, hsup, hmatch]
  · intro img imgfile
    simp [imageXmlCheckGt, requiresSupervision]

/-- Witness for C7 at a concrete matched pair in Evaluation mode. -/
theorem C7_witness :
    imageXmlCheckGt PipelineMode.Evaluation "dir/b.png" "b.jpg" = Except.ok () :=
  (C7_image_xml_mismatch_check.1 PipelineMode.Evaluation "dir/b.png" "b.jpg"
    rfl).1 (by decide)

/-- **C8**: in any ground-truth mode, a `TextLine` with no `TextEquiv`
children hits the missing-text policy: with skip-invalid and
non-existing-as-empty both disabled it raises the empty-text error; with
skip-invalid enabled it is silently dropped (whatever
non-existing-as-empty says); with non-existing-as-empty enabled (and
skip-invalid disabled) its text is substituted with `""` — observable as
a yielded `""` in `Targets` mode, while Training/Evaluation then drop
the line through the empty-ground-truth rule. -/
theorem C8_missing_textequiv_policy :
    ∀ mode ∈ TARGETS_PROCESSOR, ∀ textIndex : ℤ,
      processTextLineGt mode textIndex false false true ⟨none, []⟩ =
          LineOutcome.emptyTextError
      ∧ (∀ nee, processTextLineGt mode textIndex true nee true ⟨none, []⟩ =
          LineOutcome.skipped)
      ∧ processTextLineGt PipelineMode.Targets textIndex false true true ⟨none, []⟩ =
          LineOutcome.yielded "" false
      ∧ (requiresSupervision mode = true →
          processTextLineGt mode textIndex false true true ⟨none, []⟩ =
            LineOutcome.skipped) := by
  intro mode _ textIndex
  have hsel : selectTequiv textIndex ([] : List TextEquiv) = [] := by
    simp [selectTequiv]
  refine ⟨?_, ?_, ?_, ?_⟩
  · simp [processTextLineGt, hsel, commentsTruthy]
  · intro nee
    simp [processTextLineGt, hsel, commentsTruthy]
  · simp [processTextLineGt, hsel, commentsTruthy, requiresSupervision]
  · intro hsup
    simp [processTextLineGt, hsel, commentsTruthy, hsup]

/-- Witness for C8 at Training mode, index 0. -/
theorem C8_witness :
    processTextLineGt PipelineMode.Training 0 false false true ⟨none, []⟩ =
      LineOutcome.emptyTextError :=
  (C8_missing_textequiv_policy PipelineMode.Training (by decide) 0).1

/-- **C10**: in any ground-truth mode, a `TextLine` whose selected
`TextEquiv` has a `Unicode` child with absent (`None`) or empty text is
resolved to the empty string rather than treated as missing: even with
skip-invalid and non-existing-as-empty both disabled it never raises the
empty-text error — `Targets` mode yields `""`, and the supervision modes
(Training/Evaluation) skip the line through the empty-ground-truth rule
instead. -/
theorem C10_empty_unicode_never_empty_text_error :
    ∀ mode ∈ TARGETS_PROCESSOR, ∀ textIndex : ℤ, ∀ u : Option String,
      u = none ∨ u = some "" →
      processTextLineGt mode textIndex false false true ⟨none, [⟨none, [u]⟩]⟩ =
          (if requiresSupervision mode then LineOutcome.skipped
           else LineOutcome.yielded "" false)
      ∧ processTextLineGt mode textIndex false false true ⟨none, [⟨none, [u]⟩]⟩ ≠
          LineOutcome.emptyTextError := by
  intro mode _ textIndex u hu
  have hsel : selectTequiv textIndex [⟨none, [u]⟩] = [⟨none, [u]⟩] := by
    simp [selectTequiv]
  have hmain : processTextLineGt mode textIndex false false true
      ⟨none, [⟨none, [u]⟩]⟩ =
      (if requiresSupervision mode then LineOutcome.skipped
       else LineOutcome.yielded "" false) := by
    rcases hu with hu | hu <;> subst hu <;>
      cases hsup : requiresSupervision mode <;>
        simp [processTextLineGt, hsel, commentsTruthy, hsup]
  refine ⟨hmain, ?_⟩
  rw [hmain]
  cases requiresSupervision mode <;> simp

/-- Witness for C10 at Training mode, index 0, absent Unicode text. -/
theorem C10_witness :
    processTextLineGt PipelineMode.Training 0 false false true
      ⟨none, [⟨none, [none]⟩]⟩ = LineOutcome.skipped := by
  have h := C10_empty_unicode_never_empty_text_error PipelineMode.Training
    (by decide) 0 none (Or.inl rfl)
  simpa [requiresSupervision] using h.1

/-- The head of a filtered list is the first element satisfying the
predicate. -/
theorem head?_filter_eq_find? {α : Type} (p : α → Bool) :
    ∀ l : List α, (l.filter p).head? = l.find? p := by
  intro l
  induction l with
  | nil => rfl
  | cons a l ih =>
    by_cases h : p a
    · simp [List.filter_cons, List.find?_cons, h]
    · simp [List.filter_cons, List.find?_cons, h, ih]

/-- **C9**: text resolution over a line's competing `TextEquiv`
annotations: the candidate set is the `@index`-tagged one when any
exists, otherwise the untagged ones; the element used is the first
candidate in document order (`find?` of the corresponding predicate);
the chosen element always comes from the line; and whenever more than
one candidate remains, the record yielded by the extractor carries the
data-quality warning. -/
theorem C9_textequiv_selection :
    ∀ (textIndex : ℤ) (tes : List TextEquiv),
      (∀ te, (selectTequiv textIndex tes).head? = some te → te ∈ tes)
      ∧ (tes.filter (fun te => te.index = some (toString textIndex)) ≠ [] →
          (selectTequiv textIndex tes).head? =
            tes.find? (fun te => te.index = some (toString textIndex)))
      ∧ (tes.filter (fun te => te.index = some (toString textIndex)) = [] →
          (selectTequiv textIndex tes).head? =
            tes.find? (fun te => te.index = none))
      ∧ (1 < (selectTequiv textIndex tes).length →
          ∀ mode skipInvalid nee (text : String) (w : Bool),
            processTextLineGt mode textIndex skipInvalid nee true ⟨none, tes⟩ =
              LineOutcome.yielded text w → w = true) := by
  intro textIndex tes
  refine ⟨?_, ?_, ?_, ?_⟩
  · intro te h
    have hmem : te ∈ selectTequiv textIndex tes := by
      rcases hsel : selectTequiv textIndex tes with _ | ⟨x, xs⟩
      · rw [hsel] at h
        exact absurd h (by simp)
      · rw [hsel] at h
        have : x = te := by simpa using h
        exact this ▸ List.mem_cons_self x xs
    simp only [selectTequiv] at hmem
    split at hmem
    · exact List.mem_of_mem_filter hmem
    · exact List.mem_of_mem_filter hmem
  · intro hne
    have hemp : (tes.filter (fun te => te.index = some (toString textIndex))).isEmpty
        = false := by
      rcases hfil : tes.filter (fun te => te.index = some (toString textIndex)) with
        _ | ⟨x, xs⟩
      · exact absurd hfil hne
      · rw [hfil]
        rfl
    rw [selectTequiv]
    simp only [hemp, Bool.false_eq_true, if_false]
    exact head?_filter_eq_find? _ tes
  · intro heq
    rw [selectTequiv]
    simp only [heq, List.isEmpty_nil, if_true]
    exact head?_filter_eq_find? _ tes
  · intro hlen mode skipInvalid nee text w hyld
    rcases hsel : selectTequiv textIndex tes with _ | ⟨te, rest⟩
    · rw [hsel] at hlen
      exact absurd hlen (by simp)
    · rw [processTextLineGt] at hyld
      simp only [hsel, commentsTruthy, Bool.and_false, if_false] at hyld
      rcases hg : te.unicodes.getLast? with _ | u
      · rw [hg] at hyld
        exact absurd hyld (by simp)
      · rw [hg] at hyld
        simp only [Bool.false_eq_true, if_false] at hyld
        by_cases hskip : (requiresSupervision mode && decide (u.getD "" = "")) = true
        · rw [if_pos hskip] at hyld
          exact absurd hyld (by simp)
        · rw [if_neg hskip] at hyld
          rw [hsel] at hlen
          rw [← (LineOutcome.yielded.inj hyld).2]
          exact decide_eq_true hlen

/-- Witness for C9 on a line with one wrongly-tagged and two untagged
`TextEquiv` children: the fallback picks the first untagged one and the
yielded record carries the warning. -/
theorem C9_witness :
    (selectTequiv 0 [⟨some "1", []⟩, ⟨none, [some "a"]⟩, ⟨none, [some "b"]⟩]).head? =
      List.find? (fun te => te.index = none)
        [⟨some "1", []⟩, ⟨none, [some "a"]⟩, ⟨none, [some "b"]⟩]
    ∧ (true : Bool) = true := by
  have h := C9_textequiv_selection 0
    [⟨some "1", []⟩, ⟨none, [some "a"]⟩, ⟨none, [some "b"]⟩]
  exact ⟨h.2.2.1 (by decide),
    h.2.2.2 (by decide) PipelineMode.Targets false false "a" true (by decide)⟩

/-! ## Helper lemmas: idempotence window of `store_text`'s tree mutation -/

theorem isU_setText (ns s : String) (u : XElem) : isU ns (setText s u) = isU ns u := by
  cases u
  rfl

theorem setText_setText (s : String) (u : XElem) :
    setText s (setText s u) = setText s u := by
  cases u
  rfl

theorem isTE_setUInTE (ns : String) (ti : ℤ) (s : String) (e : XElem) :
    isTE ns ti (setUInTE ns s e) = isTE ns ti e := by
  cases e
  rfl

/-- A `TextEquiv`'s `Unicode` update is idempotent as soon as a
namespace-qualified `Unicode` child exists. -/
theorem setUChildren_idem (ns s : String) :
    ∀ us : List XElem, (us.find? (isU ns)).isSome →
      setUChildren ns s (setUChildren ns s us) = setUChildren ns s us := by
  intro us
  induction us with
  | nil => intro h; exact absurd h (by simp)
  | cons u us ih =>
    intro h
    by_cases hu : isU ns u
    · rw [setUChildren, if_pos hu, setUChildren, if_pos (by rw [isU_setText]; exact hu),
        setText_setText]
    · rw [setUChildren, if_neg hu, setUChildren, if_neg hu]
      rw [List.find?_cons_of_neg _ hu] at h
      rw [ih h]

/-- A line's `TextEquiv` update is idempotent as soon as the first
matching namespace-qualified `TextEquiv` child has a
namespace-qualified `Unicode` child. -/
theorem storeChildren_idem (ns : String) (ti : ℤ) (s : String) :
    ∀ cs : List XElem,
      (match cs.find? (isTE ns ti) with
       | some te => (te.children.find? (isU ns)).isSome = true
       | none => False) →
      storeChildren ns ti s (storeChildren ns ti s cs) = storeChildren ns ti s cs := by
  intro cs
  induction cs with
  | nil => intro h; exact absurd h (by simp)
  | cons c cs ih =>
    intro h
    by_cases hc : isTE ns ti c
    · rw [List.find?_cons_of_pos _ hc] at h
      rw [storeChildren, if_pos hc, storeChildren,
        if_pos (by rw [isTE_setUInTE]; exact hc)]
      cases c with
      | mk n t a ch tx =>
        simp only [setUInTE]
        rw [setUChildren_idem ns s ch h]
    · rw [List.find?_cons_of_neg _ hc] at h
      rw [storeChildren, if_neg hc, storeChildren, if_neg hc, ih h]

/-- The window in which the claim's idempotence can hold: the line
already carries a namespace-qualified `TextEquiv` with the configured
index whose first occurrence has a namespace-qualified `Unicode` child
(i.e. the structure `find` actually locates on a second call). -/
def hasCanonicalTE (ns : String) (ti : ℤ) (line : XElem) : Bool :=
  match line.children.find? (isTE ns ti) with
  | some te => (te.children.find? (isU ns)).isSome
  | none => false

/-- The line Scenario-like counterexample starts from: a namespaced
`TextLine` with no children at all. -/
def lineBare : XElem := XElem.mk (some "N") "TextLine" [] [] none

/-- Counterexample to **C2** as stated: on a line with no `TextEquiv`
children (inside a document with default namespace `"N"`), a second
`store_text` call with the same arguments does *not* find the node the
first call created — `etree.SubElement` created it outside the default
namespace, where the namespaced `find` cannot see it — so it appends a
second `TextEquiv` and the serialized line differs from a single call
(two children instead of one). -/
theorem C2_counterexample_duplicate_textequiv :
    storeTextLine "N" 0 "hi" (storeTextLine "N" 0 "hi" lineBare) ≠
      storeTextLine "N" 0 "hi" lineBare := by
  intro h
  have h2 := congrArg (fun e => e.children.length) h
  simp [lineBare, storeTextLine, storeChildren, setUInTE, setUChildren, isTE,
    newTE, newUnicode, setText, lookupAttr, XElem.children, XElem.nsUri,
    XElem.tag, XElem.attrs] at h2

/-- **C2 (amended)**: calling `store_text` twice with the same
(text, record) pair leaves the line's serialized content identical to
calling it once *provided* the line already carries a
namespace-qualified `TextEquiv` with the configured index whose first
occurrence contains a namespace-qualified `Unicode` child; in that
window the second call finds the same nodes and overwrites the same
text.  (Without that structure the nodes created by the first call are
namespace-less and invisible to the namespaced `find`, and a duplicate
node is appended — see the counterexample.) -/
theorem C2_amended_attach_idempotent_on_canonical_lines
    (ns : String) (ti : ℤ) (s : String) (line : XElem)
    (h : hasCanonicalTE ns ti line = true) :
    storeTextLine ns ti s (storeTextLine ns ti s line) =
      storeTextLine ns ti s line := by
  cases line with
  | mk n t a c tx =>
    have hb : (match c.find? (isTE ns ti) with
        | some te => (te.children.find? (isU ns)).isSome
        | none => false) = true := by
      simpa [hasCanonicalTE, XElem.children] using h
    have h' : (match c.find? (isTE ns ti) with
        | some te => (te.children.find? (isU ns)).isSome = true
        | none => False) := by
      rcases hfind : c.find? (isTE ns ti) with _ | te
      · rw [hfind] at hb
        exact absurd hb (by simp)
      · rw [hfind] at hb
        exact hb
    simp only [storeTextLine]
    rw [storeChildren_idem ns ti s c h']

/-- Witness for the amended C2 on a line that already carries the
namespaced `TextEquiv[@index="0"]/Unicode` structure. -/
theorem C2_witness :
    storeTextLine "N" 0 "new"
        (storeTextLine "N" 0 "new"
          (XElem.mk (some "N") "TextLine" []
            [XElem.mk (some "N") "TextEquiv" [("index", "0")]
              [XElem.mk (some "N") "Unicode" [] [] (some "old")] none] none)) =
      storeTextLine "N" 0 "new"
        (XElem.mk (some "N") "TextLine" []
          [XElem.mk (some "N") "TextEquiv" [("index", "0")]
            [XElem.mk (some "N") "Unicode" [] [] (some "old")] none] none) := by
  refine C2_amended_attach_idempotent_on_canonical_lines "N" 0 "new" _ ?_
  decide

/-- Counterexample to **C5** as stated: for an axis-aligned box 2 rows
tall and 10 columns wide (the minimum-area rectangle then coincides with
the axis-aligned box, so both readings of "the rectangle" agree), with
the external minimum-area-rectangle angle 0, the rectangle's height does
not exceed its width, so the claim predicts a +90° correction — but the
source (reader.py line 251, `mbr[2] if maxX <= maxY else mbr[2] - 90`)
applies *no* correction there. -/
theorem C5_counterexample_auto_angle_correction :
    resolveAngle 0 2 10 ≠ claimedAutoAngle 0 2 10 := by
  norm_num [resolveAngle, claimedAutoAngle]

/-- **C5 (amended)**: with `angle=None`, `cutout` behaves exactly as
with the fixed angle `resolveAngle mbrAngle extR extC`, where `mbrAngle`
is the external `cv.minAreaRect` angle and `extR`/`extC` the translated
polygon's axis-aligned bounding-box row/column extents; the applied
correction is −90° and it fires exactly when the row extent (height)
strictly exceeds the column extent (width) — no correction when height
does not exceed width. -/
theorem C5_amended_auto_angle :
    (∀ (pageimg : Img) (c : ℤ × ℤ) (cs : List (ℤ × ℤ)) (mode : CutMode)
        (mbrAngle : ℚ) (cval : Option ℤ) (scale : ℚ),
      cutout pageimg (c :: cs) mode none mbrAngle cval scale =
        cutout pageimg (c :: cs) mode
          (some (resolveAngle mbrAngle
            ((amax2 ((c :: cs).map (scalePt scale)) (scalePt scale c)).1 -
              (amin2 ((c :: cs).map (scalePt scale)) (scalePt scale c)).1)
            ((amax2 ((c :: cs).map (scalePt scale)) (scalePt scale c)).2 -
              (amin2 ((c :: cs).map (scalePt scale)) (scalePt scale c)).2)))
          mbrAngle cval scale)
    ∧ (∀ (mbrAngle : ℚ) (extR extC : ℤ),
        (extR ≤ extC → resolveAngle mbrAngle extR extC = mbrAngle)
        ∧ (extC < extR → resolveAngle mbrAngle extR extC = mbrAngle - 90)) := by
  constructor
  · intro pageimg c cs mode mbrAngle cval scale
    rfl
  · intro mbrAngle extR extC
    constructor
    · intro h
      rw [resolveAngle, if_pos h]
    · intro h
      rw [resolveAngle, if_neg (by omega)]

/-- Witness for the amended C5 at concrete extents on both sides of the
correction condition. -/
theorem C5_witness :
    resolveAngle 7 2 10 = 7 ∧ resolveAngle 7 10 2 = 7 - 90 :=
  ⟨(C5_amended_auto_angle.2 7 2 10).1 (by norm_num),
    (C5_amended_auto_angle.2 7 10 2).2 (by norm_num)⟩

/-! ## Helper lemmas: numpy slicing and crop dimensions -/

theorem pyIdx_le (n : ℕ) (i : ℤ) : pyIdx n i ≤ n := by
  show (max 0 (min (if i < 0 then i + n else i) (n : ℤ))).toNat ≤ n
  exact Int.toNat_le.mpr (max_le (Int.natCast_nonneg n) (min_le_right _ _))

theorem pyIdx_of_nonneg (n : ℕ) (i : ℤ) (h0 : 0 ≤ i) (h1 : i ≤ (n : ℤ)) :
    pyIdx n i = i.toNat := by
  show (max 0 (min (if i < 0 then i + n else i) (n : ℤ))).toNat = i.toNat
  rw [if_neg (by omega), min_eq_left h1, max_eq_right h0]

theorem pyIdx_of_ge (n : ℕ) (i : ℤ) (h : (n : ℤ) ≤ i) : pyIdx n i = n := by
  show (max 0 (min (if i < 0 then i + n else i) (n : ℤ))).toNat = n
  rw [if_neg (by omega), min_eq_right h, max_eq_right (Int.natCast_nonneg n)]
  omega

theorem npSlice_length {α : Type} (xs : List α) (a b : ℤ) :
    (npSlice xs a b).length = pyIdx xs.length b - pyIdx xs.length a := by
  unfold npSlice
  rw [List.length_drop, List.length_take]
  have := pyIdx_le xs.length b
  omega

theorem mem_of_mem_npSlice {α : Type} {xs : List α} {a b : ℤ} {x : α}
    (h : x ∈ npSlice xs a b) : x ∈ xs := by
  unfold npSlice at h
  exact List.mem_of_mem_take (List.mem_of_mem_drop h)

theorem crop2_length (img : Img) (r0 r1 c0 c1 : ℤ) :
    (crop2 img r0 r1 c0 c1).length = pyIdx img.length r1 - pyIdx img.length r0 := by
  unfold crop2
  rw [List.length_map, npSlice_length]

theorem crop2_row_length (img : Img) (w : ℕ) (hrect : ∀ r ∈ img, r.length = w)
    (r0 r1 c0 c1 : ℤ) :
    ∀ row ∈ crop2 img r0 r1 c0 c1, row.length = pyIdx w c1 - pyIdx w c0 := by
  intro row hrow
  unfold crop2 at hrow
  rcases List.mem_map.mp hrow with ⟨orig, horig, hrw⟩
  rw [← hrw, npSlice_length, hrect orig (mem_of_mem_npSlice horig)]

theorem imgSize_eq_zero_iff (img : Img) :
    imgSize img = 0 ↔ ∀ r ∈ img, r.length = 0 := by
  unfold imgSize
  rw [List.sum_eq_zero_iff]
  constructor
  · intro h r hr
    exact h r.length (List.mem_map_of_mem List.length hr)
  · intro h x hx
    rcases List.mem_map.mp hx with ⟨r, hr, hlen⟩
    rw [← hlen]
    exact h r hr

theorem amax2_ge (pts : List (ℤ × ℤ)) :
    ∀ p0 : ℤ × ℤ, p0.1 ≤ (amax2 pts p0).1 ∧ p0.2 ≤ (amax2 pts p0).2 := by
  induction pts with
  | nil => intro p0; exact ⟨le_refl _, le_refl _⟩
  | cons p ps ih =>
    intro p0
    have h := ih (max p0.1 p.1, max p0.2 p.2)
    exact ⟨le_trans (le_max_left _ _) h.1, le_trans (le_max_left _ _) h.2⟩

theorem amin2_le (pts : List (ℤ × ℤ)) :
    ∀ p0 : ℤ × ℤ, (amin2 pts p0).1 ≤ p0.1 ∧ (amin2 pts p0).2 ≤ p0.2 := by
  induction pts with
  | nil => intro p0; exact ⟨le_refl _, le_refl _⟩
  | cons p ps ih =>
    intro p0
    have h := ih (min p0.1 p.1, min p0.2 p.2)
    exact ⟨le_trans h.1 (min_le_left _ _), le_trans h.2 (min_le_left _ _)⟩

theorem maskCompose_map_length (cut : Img) (pts : List (ℤ × ℤ)) (cval : ℤ) :
    (maskCompose cut pts cval).map List.length = cut.map List.length := by
  unfold maskCompose
  rw [List.map_map]
  have h1 : (List.length ∘ fun rc : ℕ × List ℤ =>
      rc.2.enum.map (fun cv => if inPoly pts (cv.1, rc.1) then cv.2 else cval)) =
      (fun rc : ℕ × List ℤ => rc.2.length) := by
    funext rc
    simp [List.enum_length]
  rw [h1]
  have h2 : (fun rc : ℕ × List ℤ => rc.2.length) =
      (List.length ∘ Prod.snd) := rfl
  rw [h2, ← List.map_map, List.enum_map_snd]

theorem maskCompose_length (cut : Img) (pts : List (ℤ × ℤ)) (cval : ℤ) :
    (maskCompose cut pts cval).length = cut.length := by
  have h := congrArg List.length (maskCompose_map_length cut pts cval)
  simpa using h

theorem maskCompose_rect (cut : Img) (pts : List (ℤ × ℤ)) (cval : ℤ) (m : ℕ)
    (h : ∀ r ∈ cut, r.length = m) :
    ∀ row ∈ maskCompose cut pts cval, row.length = m := by
  intro row hrow
  have h1 : row.length ∈ (maskCompose cut pts cval).map List.length :=
    List.mem_map_of_mem List.length hrow
  rw [maskCompose_map_length] at h1
  rcases List.mem_map.mp h1 with ⟨r, hr, hlen⟩
  rw [← hlen, h r hr]

/-- Evaluation of `cutout` when the bounds crop is empty: the crop is
returned as is (reader.py lines 242–243). -/
theorem cutout_empty_eval (pageimg : Img) (c : ℤ × ℤ) (cs : List (ℤ × ℤ))
    (mode : CutMode) (angle : Option ℚ) (mbrAngle : ℚ) (cval : Option ℤ)
    (scale : ℚ) (minR minC maxR maxC : ℤ)
    (hmin : amin2 ((c :: cs).map (scalePt scale)) (scalePt scale c) = (minR, minC))
    (hmax : amax2 ((c :: cs).map (scalePt scale)) (scalePt scale c) = (maxR, maxC))
    (hsize : imgSize (crop2 pageimg minR (maxR + 1) minC (maxC + 1)) = 0) :
    cutout pageimg (c :: cs) mode angle mbrAngle cval scale =
      some (crop2 pageimg minR (maxR + 1) minC (maxC + 1)) := by
  simp only [cutout, hmin, hmax]
  rw [if_pos hsize]

/-- Evaluation of `cutout` along the zero-angle, non-empty-crop path
(reader.py lines 236–246, 282–284, 292–301). -/
theorem cutout_angle0_eval (pageimg : Img) (c : ℤ × ℤ) (cs : List (ℤ × ℤ))
    (mode : CutMode) (mbrAngle : ℚ) (cval : Option ℤ) (scale : ℚ)
    (minR minC maxR maxC : ℤ)
    (hmin : amin2 ((c :: cs).map (scalePt scale)) (scalePt scale c) = (minR, minC))
    (hmax : amax2 ((c :: cs).map (scalePt scale)) (scalePt scale c) = (maxR, maxC))
    (hsize : imgSize (crop2 pageimg minR (maxR + 1) minC (maxC + 1)) ≠ 0) :
    cutout pageimg (c :: cs) mode (some 0) mbrAngle cval scale =
      (match mode with
       | CutMode.MBR => none
       | CutMode.POLYGON =>
         some (crop2
           (maskCompose (crop2 pageimg minR (maxR + 1) minC (maxC + 1))
             ((((c :: cs).map (scalePt scale)).map
               (fun p => (p.1 - minR, p.2 - minC))).map Prod.swap)
             (match cval with
              | some v => v
              | none => imgMax (crop2 pageimg minR (maxR + 1) minC (maxC + 1))))
           0 ((maxR - minR) + 1) 0 ((maxC - minC) + 1))
       | CutMode.BOX =>
         some (crop2 (crop2 pageimg minR (maxR + 1) minC (maxC + 1))
           0 ((maxR - minR) + 1) 0 ((maxC - minC) + 1))) := by
  simp only [cutout, hmin, hmax]
  rw [if_neg hsize]
  norm_num

/-- **C4**: for a polygon whose scaled bounds lie inside the image,
`cutout` with `angle = 0` and `mode = CutMode.BOX` returns an image of
exactly the polygon's axis-aligned bounding-box dimensions (inclusive
pixel bounds, so extent+1 in each axis); and on the spec's Scenario A —
polygon `"0,0 0,10 10,10 10,0"`, scale 1, on the 11×11 image — it
returns the full 11×11 image region unchanged. -/
theorem C4_box_mode_bounding_box_dims :
    (∀ (img : Img) (w : ℕ), (∀ r ∈ img, r.length = w) →
      ∀ (c : ℤ × ℤ) (cs : List (ℤ × ℤ)) (scale : ℚ) (cval : Option ℤ)
        (mbrAngle : ℚ) (minR minC maxR maxC : ℤ),
        amin2 ((c :: cs).map (scalePt scale)) (scalePt scale c) = (minR, minC) →
        amax2 ((c :: cs).map (scalePt scale)) (scalePt scale c) = (maxR, maxC) →
        0 ≤ minR → maxR < (img.length : ℤ) → 0 ≤ minC → maxC < (w : ℤ) →
        ∃ out,
          cutout img (c :: cs) CutMode.BOX (some 0) mbrAngle cval scale = some out
          ∧ out.length = (maxR - minR + 1).toNat
          ∧ ∀ row ∈ out, row.length = (maxC - minC + 1).toNat)
    ∧ cutoutStr img11 "0,0 0,10 10,10 10,0" CutMode.BOX (some 0) 0 none 1 =
        some img11 := by
  refine ⟨?_, by decide⟩
  intro img w hrect c cs scale cval mbrAngle minR minC maxR maxC hmin hmax hr0 hr1 hc0 hc1
  have hle1 : minR ≤ maxR := by
    have h1 := (amin2_le ((c :: cs).map (scalePt scale)) (scalePt scale c)).1
    have h2 := (amax2_ge ((c :: cs).map (scalePt scale)) (scalePt scale c)).1
    rw [hmin] at h1
    rw [hmax] at h2
    exact le_trans h1 h2
  have hle2 : minC ≤ maxC := by
    have h1 := (amin2_le ((c :: cs).map (scalePt scale)) (scalePt scale c)).2
    have h2 := (amax2_ge ((c :: cs).map (scalePt scale)) (scalePt scale c)).2
    rw [hmin] at h1
    rw [hmax] at h2
    exact le_trans h1 h2
  have hcutlen : (crop2 img minR (maxR + 1) minC (maxC + 1)).length =
      (maxR - minR + 1).toNat := by
    rw [crop2_length, pyIdx_of_nonneg img.length minR hr0 (by omega),
      pyIdx_of_nonneg img.length (maxR + 1) (by omega) (by omega)]
    omega
  have hcutrows : ∀ row ∈ crop2 img minR (maxR + 1) minC (maxC + 1),
      row.length = (maxC - minC + 1).toNat := by
    intro row hrow
    have h := crop2_row_length img w hrect minR (maxR + 1) minC (maxC + 1) row hrow
    rw [h, pyIdx_of_nonneg w minC hc0 (by omega),
      pyIdx_of_nonneg w (maxC + 1) (by omega) (by omega)]
    omega
  have hsize : imgSize (crop2 img minR (maxR + 1) minC (maxC + 1)) ≠ 0 := by
    intro h0
    have hall := (imgSize_eq_zero_iff _).mp h0
    have hpos : 0 < (crop2 img minR (maxR + 1) minC (maxC + 1)).length := by
      rw [hcutlen]
      omega
    rcases List.exists_mem_of_length_pos hpos with ⟨row, hrow⟩
    have hz := hall row hrow
    have ho := hcutrows row hrow
    omega
  rw [cutout_angle0_eval img c cs CutMode.BOX mbrAngle cval scale minR minC maxR maxC
    hmin hmax hsize]
  refine ⟨crop2 (crop2 img minR (maxR + 1) minC (maxC + 1))
    0 ((maxR - minR) + 1) 0 ((maxC - minC) + 1), rfl, ?_, ?_⟩
  · rw [crop2_length, hcutlen,
      pyIdx_of_nonneg _ 0 (le_refl 0) (by omega),
      pyIdx_of_nonneg _ ((maxR - minR) + 1) (by omega) (by omega)]
    omega
  · intro row hrow
    have h := crop2_row_length (crop2 img minR (maxR + 1) minC (maxC + 1))
      ((maxC - minC + 1).toNat) hcutrows 0 ((maxR - minR) + 1) 0 ((maxC - minC) + 1)
      row hrow
    rw [h, pyIdx_of_nonneg _ 0 (le_refl 0) (by omega),
      pyIdx_of_nonneg _ ((maxC - minC) + 1) (by omega) (by omega)]
    omega

/-- Witness for C4: the polygon `[(1,0), (2,1)]` on the 4×4 test image
gives a 2×2 cutout. -/
theorem C4_witness :
    ∃ out, cutout img4 [(1, 0), (2, 1)] CutMode.BOX (some 0) 0 none 1 = some out
      ∧ out.length = ((1 : ℤ) - 0 + 1).toNat
      ∧ ∀ row ∈ out, row.length = ((2 : ℤ) - 1 + 1).toNat :=
  C4_box_mode_bounding_box_dims.1 img4 4 (by decide) (1, 0) [(2, 1)] 1 none 0
    0 1 1 2 (by decide) (by decide) (by decide) (by decide) (by decide) (by decide)

/-- Counterexample to **C3** as stated: the degenerate polygon whose
four points are all `(5,5)` on the 11×11 image (scale 1, the source's
default `mode=CutMode.POLYGON`, angle 0) does *not* give empty bounds —
the inclusive `+1` slicing of reader.py line 241 makes the crop one
pixel — so `cutout` returns a 1×1 image (pixel value 60), not a
zero-size one. -/
theorem C3_counterexample_identical_points_one_pixel :
    cutout img11 [(5, 5), (5, 5), (5, 5), (5, 5)] CutMode.POLYGON (some 0) 0 none 1 =
      some [[60]]
    ∧ imgSize [[60]] ≠ 0 := by
  decide


theorem pyTruncMul_one (n : ℤ) : pyTruncMul 1 n = n := by
  unfold pyTruncMul truncDiv
  rw [Rat.num_one, Rat.den_one, one_mul, Nat.cast_one]
  by_cases h : 0 ≤ n
  · rw [if_pos h]
    exact Int.ediv_one n
  · rw [if_neg h]
    rw [show (-n).ediv 1 = -n from Int.ediv_one (-n), neg_neg]

theorem amax2_replicate (p : ℤ × ℤ) : ∀ k, amax2 (List.replicate k p) p = p := by
  intro k
  induction k with
  | zero => rfl
  | succ n ih =>
    have hstep : amax2 (p :: List.replicate n p) p =
        amax2 (List.replicate n p) (max p.1 p.1, max p.2 p.2) := rfl
    rw [List.replicate_succ, hstep, max_self, max_self, Prod.mk.eta]
    exact ih

theorem amin2_replicate (p : ℤ × ℤ) : ∀ k, amin2 (List.replicate k p) p = p := by
  intro k
  induction k with
  | zero => rfl
  | succ n ih =>
    have hstep : amin2 (p :: List.replicate n p) p =
        amin2 (List.replicate n p) (min p.1 p.1, min p.2 p.2) := rfl
    rw [List.replicate_succ, hstep, min_self, min_self, Prod.mk.eta]
    exact ih

set_option maxHeartbeats 1000000 in
/-- **C3 (amended)**: a degenerate polygon with all points identical at
`(x, y)` (scale 1, angle 0, either of the fully modelled modes) never
fails: `cutout` always returns an image.  That image is zero-size
exactly when the point lies outside the image (`y` beyond the rows or
`x` beyond the columns) — the claim's "empty polygon bounds" case —
while a point inside the image yields a 1×1 image, not a zero-size
one. -/
theorem C3_amended_degenerate_polygon :
    ∀ (img : Img) (w : ℕ), (∀ r ∈ img, r.length = w) →
      ∀ (x y : ℤ) (k : ℕ) (cval : Option ℤ) (mbrAngle : ℚ) (mode : CutMode),
        mode ≠ CutMode.MBR → 0 ≤ x → 0 ≤ y →
        ∃ out,
          cutout img ((x, y) :: List.replicate k (x, y)) mode (some 0) mbrAngle cval 1 =
            some out
          ∧ (imgSize out = 0 ↔ ((img.length : ℤ) ≤ y ∨ (w : ℤ) ≤ x))
          ∧ (y < (img.length : ℤ) → x < (w : ℤ) →
              out.length = 1 ∧ ∀ row ∈ out, row.length = 1) := by
  intro img w hrect x y k cval mbrAngle mode hmode hx hy
  have hsc : scalePt 1 (x, y) = (y, x) := by
    simp [scalePt, pyTruncMul_one]
  have hpts : (((x, y) :: List.replicate k (x, y)).map (scalePt 1)) =
      (y, x) :: List.replicate k (y, x) := by
    rw [List.map_cons, hsc, List.map_replicate, hsc]
  have hmax : amax2 (((x, y) :: List.replicate k (x, y)).map (scalePt 1))
      (scalePt 1 (x, y)) = (y, x) := by
    rw [hpts, hsc]
    have hstep : amax2 ((y, x) :: List.replicate k (y, x)) (y, x) =
        amax2 (List.replicate k (y, x)) (max y y, max x x) := rfl
    rw [hstep, max_self, max_self]
    exact amax2_replicate (y, x) k
  have hmin : amin2 (((x, y) :: List.replicate k (x, y)).map (scalePt 1))
      (scalePt 1 (x, y)) = (y, x) := by
    rw [hpts, hsc]
    have hstep : amin2 ((y, x) :: List.replicate k (y, x)) (y, x) =
        amin2 (List.replicate k (y, x)) (min y y, min x x) := rfl
    rw [hstep, min_self, min_self]
    exact amin2_replicate (y, x) k
  by_cases hout : ((img.length : ℤ) ≤ y ∨ (w : ℤ) ≤ x)
  · -- point outside the image: the bounds crop is empty
    have hsize : imgSize (crop2 img y (y + 1) x (x + 1)) = 0 := by
      rcases hout with hout | hout
      · have hlen : (crop2 img y (y + 1) x (x + 1)).length = 0 := by
          rw [crop2_length, pyIdx_of_ge img.length y hout,
            pyIdx_of_ge img.length (y + 1) (by omega)]
          omega
        rw [List.length_eq_zero] at hlen
        rw [hlen]
        rfl
      · apply (imgSize_eq_zero_iff _).mpr
        intro r hr
        have h := crop2_row_length img w hrect y (y + 1) x (x + 1) r hr
        rw [h, pyIdx_of_ge w x hout, pyIdx_of_ge w (x + 1) (by omega)]
        omega
    refine ⟨crop2 img y (y + 1) x (x + 1),
      cutout_empty_eval img (x, y) (List.replicate k (x, y)) mode (some 0) mbrAngle
        cval 1 y x y x hmin hmax hsize, ⟨fun _ => hout, fun _ => hsize⟩, ?_⟩
    intro h1 h2
    rcases hout with hout | hout <;> omega
  · -- point inside the image: the crop is 1×1
    push_neg at hout
    have hcutlen : (crop2 img y (y + 1) x (x + 1)).length = 1 := by
      rw [crop2_length, pyIdx_of_nonneg img.length y hy (by omega),
        pyIdx_of_nonneg img.length (y + 1) (by omega) (by omega)]
      omega
    have hcutrows : ∀ row ∈ crop2 img y (y + 1) x (x + 1), row.length = 1 := by
      intro row hrow
      have h := crop2_row_length img w hrect y (y + 1) x (x + 1) row hrow
      rw [h, pyIdx_of_nonneg w x hx (by omega),
        pyIdx_of_nonneg w (x + 1) (by omega) (by omega)]
      omega
    have hsize : imgSize (crop2 img y (y + 1) x (x + 1)) ≠ 0 := by
      intro h0
      have hall := (imgSize_eq_zero_iff _).mp h0
      have hpos : 0 < (crop2 img y (y + 1) x (x + 1)).length := by
        rw [hcutlen]
        omega
      rcases List.exists_mem_of_length_pos hpos with ⟨row, hrow⟩
      have hz := hall row hrow
      have ho := hcutrows row hrow
      omega
    have heval := cutout_angle0_eval img (x, y) (List.replicate k (x, y)) mode
      mbrAngle cval 1 y x y x hmin hmax hsize
    have hgoal : ∀ base : Img, base.length = 1 → (∀ row ∈ base, row.length = 1) →
        (imgSize (crop2 base 0 ((y - y) + 1) 0 ((x - x) + 1)) = 0 ↔
          ((img.length : ℤ) ≤ y ∨ (w : ℤ) ≤ x))
        ∧ (y < (img.length : ℤ) → x < (w : ℤ) →
            (crop2 base 0 ((y - y) + 1) 0 ((x - x) + 1)).length = 1
            ∧ ∀ row ∈ crop2 base 0 ((y - y) + 1) 0 ((x - x) + 1), row.length = 1) := by
      intro base hb1 hb2
      have hl : (crop2 base 0 ((y - y) + 1) 0 ((x - x) + 1)).length = 1 := by
        rw [crop2_length, hb1, pyIdx_of_nonneg 1 0 (le_refl 0) (by omega),
          pyIdx_of_nonneg 1 ((y - y) + 1) (by omega) (by omega)]
        omega
      have hr : ∀ row ∈ crop2 base 0 ((y - y) + 1) 0 ((x - x) + 1),
          row.length = 1 := by
        intro row hrow
        have h := crop2_row_length base 1 hb2 0 ((y - y) + 1) 0 ((x - x) + 1) row hrow
        rw [h, pyIdx_of_nonneg 1 0 (le_refl 0) (by omega),
          pyIdx_of_nonneg 1 ((x - x) + 1) (by omega) (by omega)]
        omega
      have hsz : imgSize (crop2 base 0 ((y - y) + 1) 0 ((x - x) + 1)) ≠ 0 := by
        intro h0
        have hall := (imgSize_eq_zero_iff _).mp h0
        have hpos : 0 < (crop2 base 0 ((y - y) + 1) 0 ((x - x) + 1)).length := by
          rw [hl]
          omega
        rcases List.exists_mem_of_length_pos hpos with ⟨row, hrow⟩
        have hz := hall row hrow
        have ho := hr row hrow
        omega
      refine ⟨⟨fun h0 => absurd h0 hsz, fun hcontra => ?_⟩, fun _ _ => ⟨hl, hr⟩⟩
      rcases hcontra with hcontra | hcontra <;> omega
    cases mode with
    | MBR => exact absurd rfl hmode
    | BOX =>
      rw [heval]
      exact ⟨_, rfl, (hgoal _ hcutlen hcutrows).1, (hgoal _ hcutlen hcutrows).2⟩
    | POLYGON =>
      rw [heval]
      refine ⟨_, rfl, ?_⟩
      constructor
      · exact (hgoal _ (by rw [maskCompose_length, hcutlen])
          (maskCompose_rect _ _ _ 1 hcutrows)).1
      · exact (hgoal _ (by rw [maskCompose_length, hcutlen])
          (maskCompose_rect _ _ _ 1 hcutrows)).2

/-- Witness for the amended C3 at a point inside the 11×11 test
image. -/
theorem C3_witness :
    ∃ out,
      cutout img11 ((5, 5) :: List.replicate 3 (5, 5)) CutMode.BOX (some 0) 0 none 1 =
        some out
      ∧ (imgSize out = 0 ↔ ((img11.length : ℤ) ≤ 5 ∨ ((11 : ℕ) : ℤ) ≤ 5))
      ∧ ((5 : ℤ) < (img11.length : ℤ) → (5 : ℤ) < ((11 : ℕ) : ℤ) →
          out.length = 1 ∧ ∀ row ∈ out, row.length = 1) :=
  C3_amended_degenerate_polygon img11 11 (by decide) 5 5 3 none 0 CutMode.BOX
    (by decide) (by decide) (by decide)

/-- **C6**: evaluation of the `_load_sample` loop body at a concrete
record with padding configured (`pad = 1`, full-image polygon,
orientation 0, matching widths).  The yielded line image is the *bare*
cutout (here the full 4×4 page image), while the padding border —
constant value `img.max()` = 15 — is applied to the page image `img`
instead (reader.py line 382 reassigns `img`, not `line_img`), so the
yielded sample's image is *not* the padded cutout the claim (and the
source's own comment, line 379) describes. -/
theorem C6_padding_applied_to_page_image_not_line_image :
    (loadSampleLine 1 img4 [(0, 0), (3, 0), (3, 3), (0, 3)] 0 4).1 = some img4
    ∧ (loadSampleLine 1 img4 [(0, 0), (3, 0), (3, 3), (0, 3)] 0 4).2 =
        npPad img4 1 (imgMax img4)
    ∧ (loadSampleLine 1 img4 [(0, 0), (3, 0), (3, 3), (0, 3)] 0 4).1 ≠
        some (npPad img4 1 (imgMax img4)) := by
  decide
